import Mathlib

/-!
Shallow embedding of `tonic/src/transport/service/tls.rs`.

The module wires rustls into tonic's transport: `TlsConnector::new` /
`TlsConnector::connect` on the client side, `TlsAcceptor::new` /
`TlsAcceptor::accept` on the server side, and the helpers
`rustls_keys::load_rustls_private_key`, `rustls_keys::load_identity` and
`rustls_keys::add_certs_from_pem`.

External library behaviour is embedded at its observable interface:
* `rustls_pemfile::read_one` on a key PEM is a stream of read events
  (an item, or a read error; stream exhaustion is the end of the list);
* `rustls_pemfile::certs` on a certificate PEM is a stream of per-block
  results (a certificate or an io error);
* whether `RootCertStore::add_parsable_certificates` accepts a DER blob
  is recorded as the `parsable` flag of the blob (the webpki parser's
  verdict is a pure function of the bytes, abstracted as a field);
* `ServerName::try_from` validity is the `valid` flag of the domain input;
* `WebPkiClientVerifier::builder(roots).build()` fails exactly on an empty
  root store (`NoRootAnchors`), with or without `allow_unauthenticated`;
* the rustls checks `ConfigBuilder::with_single_cert(cert, key)` and
  `ConfigBuilder::with_client_auth_cert(cert, key)` perform on the loaded
  pair (provider key parsing, key/certificate compatibility) are passed in
  as a verdict function on that pair.
-/

set_option autoImplicit false

deriving instance DecidableEq for Except

namespace TonicTls

/-- PEM items as produced by `rustls_pemfile::read_one`. -/
inductive Item where
  | x509Certificate (der : List Nat)
  | pkcs1Key (der : List Nat)
  | pkcs8Key (der : List Nat)
  | sec1Key (der : List Nat)
  | crl (der : List Nat)
  | csr (der : List Nat)
  deriving DecidableEq

/-- One `rustls_pemfile::read_one` step on the key cursor: `Ok(Some(item))`
or `Err(_)`; exhaustion (`Ok(None)`) is the end of the event list. -/
inductive ReadEvent where
  | ok (item : Item)
  | readErr
  deriving DecidableEq

/-- The `TlsError` enum of the module. -/
inductive TlsError where
  | h2NotNegotiated
  | certificateParseError
  | privateKeyParseError
  deriving DecidableEq

/-- `crate::Error` (a boxed error): the module's own `TlsError`s plus the
pass-through errors of the libraries it calls. -/
inductive Error where
  | tls (e : TlsError)
  | ioError (code : Nat)
  | verifierBuild
  | invalidDnsName
  deriving DecidableEq

/-- `rustls::pki_types::PrivateKeyDer`: a key tagged with its encoding. -/
inductive PrivateKeyDer where
  | pkcs1 (der : List Nat)
  | pkcs8 (der : List Nat)
  | sec1 (der : List Nat)
  deriving DecidableEq

/-- `rustls_keys::load_rustls_private_key`: drain `read_one` while it yields
`Ok(Some(item))`; return the first PKCS1/PKCS8/SEC1 key, skip every other
item; on `Err(_)` or exhaustion fall through to `PrivateKeyParseError`. -/
def load_rustls_private_key : List ReadEvent → Except Error PrivateKeyDer
  | [] => .error (.tls .privateKeyParseError)
  | .readErr :: _ => .error (.tls .privateKeyParseError)
  | .ok item :: rest =>
    match item with
    | .pkcs1Key key => .ok (.pkcs1 key)
    | .pkcs8Key key => .ok (.pkcs8 key)
    | .sec1Key key => .ok (.sec1 key)
    | _ => load_rustls_private_key rest

/-- Specification-side view of the match arms of `load_rustls_private_key`:
the key an item is recognized as, if any. -/
def itemKey? : Item → Option PrivateKeyDer
  | .pkcs1Key key => some (.pkcs1 key)
  | .pkcs8Key key => some (.pkcs8 key)
  | .sec1Key key => some (.sec1 key)
  | _ => none

/-- `rustls::pki_types::CertificateDer` together with the webpki verdict
used by `RootCertStore::add_parsable_certificates` on its bytes. -/
structure CertificateDer where
  der : List Nat
  parsable : Bool
  deriving DecidableEq

/-- A certificate PEM as seen through `rustls_pemfile::certs`: one result
per PEM block, either a certificate or an io error. -/
abbrev CertPem := List (Except Nat CertificateDer)

/-- `rustls_pemfile::certs(..).collect::<Result<Vec<_>, io::Error>>()`:
all blocks in order, or the first io error. -/
def collectCerts : CertPem → Except Error (List CertificateDer)
  | [] => .ok []
  | .error e :: _ => .error (.ioError e)
  | .ok c :: rest => do
    let cs ← collectCerts rest
    return c :: cs

/-- `rustls::RootCertStore`, as the list of accepted trust anchors. -/
abbrev RootCertStore := List CertificateDer

/-- `RootCertStore::add_parsable_certificates`: add each parsable
certificate, count the rest as ignored; returns (store, added, ignored). -/
def add_parsable_certificates (roots : RootCertStore) (certs : List CertificateDer) :
    RootCertStore × Nat × Nat :=
  match certs with
  | [] => (roots, 0, 0)
  | c :: rest =>
    if c.parsable then
      let r := add_parsable_certificates (roots ++ [c]) rest
      (r.1, r.2.1 + 1, r.2.2)
    else
      let r := add_parsable_certificates roots rest
      (r.1, r.2.1, r.2.2 + 1)

/-- `rustls_keys::add_certs_from_pem`: collect all certificate blocks
(propagating the io error, store untouched), add the parsable ones to the
store, and fail with `CertificateParseError` when any was ignored. The
store mutation is returned alongside the result. -/
def add_certs_from_pem (certs : CertPem) (roots : RootCertStore) :
    RootCertStore × Except Error Unit :=
  match collectCerts certs with
  | .error e => (roots, .error e)
  | .ok cs =>
    let r := add_parsable_certificates roots cs
    if r.2.2 = 0 then (r.1, .ok ()) else (r.1, .error (.tls .certificateParseError))

/-- `crate::transport::Identity`: raw cert PEM and key PEM, each viewed
through its pemfile parse stream. -/
structure Identity where
  cert : CertPem
  key : List ReadEvent
  deriving DecidableEq

/-- `rustls_keys::load_identity`: certificate chain first (propagating its
io error), then the private key (propagating `PrivateKeyParseError`). -/
def load_identity (identity : Identity) :
    Except Error (List CertificateDer × PrivateKeyDer) := do
  let cert ← collectCerts identity.cert
  let key ← load_rustls_private_key identity.key
  return (cert, key)

/-- `b"h2"` in plain bytes. -/
def ALPN_H2 : List Nat := [104, 50]

/-- The fields of `rustls::ClientConfig` this module sets. -/
structure ClientConfig where
  roots : RootCertStore
  clientAuth : Option (List CertificateDer × PrivateKeyDer)
  alpn_protocols : List (List Nat)
  deriving DecidableEq

/-- The `domain: &str` argument together with the verdict of
`ServerName::try_from` on it. -/
structure DnsNameInput where
  name : String
  valid : Bool
  deriving DecidableEq

structure TlsConnector where
  config : ClientConfig
  domain : String
  assume_http2 : Bool
  deriving DecidableEq

/-- `TlsConnector::new`. `initialRoots` is the store contents after the
cfg-gated native/webpki root additions (empty when both features are off);
`with_client_auth_cert` is the verdict of the fallible rustls builder step
of the same name on the loaded identity pair. -/
def TlsConnector.new
    (with_client_auth_cert : List CertificateDer → PrivateKeyDer → Except Error Unit)
    (initialRoots : RootCertStore) (ca_cert : Option CertPem)
    (identity : Option Identity) (domain : DnsNameInput) (assume_http2 : Bool) :
    Except Error TlsConnector := do
  let roots ←
    match ca_cert with
    | some cert =>
      match add_certs_from_pem cert initialRoots with
      | (r, .ok _) => Except.ok r
      | (_, .error e) => Except.error e
    | none => Except.ok initialRoots
  let clientAuth ←
    match identity with
    | some id =>
      match load_identity id with
      | .ok pair =>
        match with_client_auth_cert pair.1 pair.2 with
        | .ok _ => Except.ok (some pair)
        | .error e => Except.error e
      | .error e => Except.error e
    | none => Except.ok none
  let dom ←
    if domain.valid then Except.ok domain.name else Except.error Error.invalidDnsName
  Except.ok
    { config := { roots := roots, clientAuth := clientAuth, alpn_protocols := [ALPN_H2] },
      domain := dom,
      assume_http2 := assume_http2 }

/-- What `connect` observes of a completed rustls session:
`session.alpn_protocol()`. -/
structure Session where
  alpn : Option (List Nat)
  deriving DecidableEq

/-- `TlsConnector::connect`, given the outcome of the cryptographic
handshake. On success the ALPN check runs:
`Some(b) if b == b"h2"` passes, the wildcard passes when `assume_http2`,
everything else is `H2NotNegotiated`. -/
def TlsConnector.connect (c : TlsConnector) (handshake : Except Error Session) :
    Except Error Unit := do
  let session ← handshake
  match session.alpn with
  | some b =>
    if b = ALPN_H2 then Except.ok ()
    else if c.assume_http2 then Except.ok ()
    else Except.error (.tls .h2NotNegotiated)
  | none =>
    if c.assume_http2 then Except.ok ()
    else Except.error (.tls .h2NotNegotiated)

/-- The client-auth posture a `ServerConfig` ends up with: no verifier,
`WebPkiClientVerifier` with `allow_unauthenticated`, or the plain required
verifier — each verifier carrying the store it was built from. -/
inductive ClientAuthPosture where
  | disabled
  | optionalVerify (roots : RootCertStore)
  | requiredVerify (roots : RootCertStore)
  deriving DecidableEq

/-- The fields of `rustls::ServerConfig` this module sets. -/
structure ServerConfig where
  clientAuth : ClientAuthPosture
  cert : List CertificateDer
  key : PrivateKeyDer
  alpn_protocols : List (List Nat)
  deriving DecidableEq

structure TlsAcceptor where
  inner : ServerConfig
  deriving DecidableEq

/-- `WebPkiClientVerifier::builder(roots).build()`: `NoRootAnchors` on an
empty store, otherwise a verifier. -/
def webPkiClientVerifierBuild (roots : RootCertStore) : Except Error Unit :=
  if roots = [] then Except.error Error.verifierBuild else Except.ok ()

/-- `TlsAcceptor::new`: the three-way match on
`(client_ca_root, client_auth_optional)`, then `load_identity`, then the
fallible `with_single_cert` builder step on the loaded pair (its rustls
verdict passed in as `with_single_cert`), then the ALPN push. -/
def TlsAcceptor.new
    (with_single_cert : List CertificateDer → PrivateKeyDer → Except Error Unit)
    (identity : Identity) (client_ca_root : Option CertPem)
    (client_auth_optional : Bool) : Except Error TlsAcceptor := do
  let posture ←
    match client_ca_root, client_auth_optional with
    | none, _ => Except.ok ClientAuthPosture.disabled
    | some cert, true =>
      match add_certs_from_pem cert [] with
      | (roots, .ok _) =>
        match webPkiClientVerifierBuild roots with
        | .ok _ => Except.ok (ClientAuthPosture.optionalVerify roots)
        | .error e => Except.error e
      | (_, .error e) => Except.error e
    | some cert, false =>
      match add_certs_from_pem cert [] with
      | (roots, .ok _) =>
        match webPkiClientVerifierBuild roots with
        | .ok _ => Except.ok (ClientAuthPosture.requiredVerify roots)
        | .error e => Except.error e
      | (_, .error e) => Except.error e
  let pair ← load_identity identity
  let _ ← with_single_cert pair.1 pair.2
  Except.ok
    { inner :=
        { clientAuth := posture, cert := pair.1, key := pair.2,
          alpn_protocols := [ALPN_H2] } }

/-- `TlsAcceptor::accept`: delegate to rustls and map the error
(`map_err(Into::into)`); the stream payload is opaque here. -/
def TlsAcceptor.accept (_a : TlsAcceptor) (handshake : Except Error Nat) :
    Except Error Nat :=
  handshake

/-- Repeated `connect` calls against one shared connector, threading the
connector through to expose any mutation of the shared configuration. -/
def connectMany (c : TlsConnector) :
    List (Except Error Session) → List (Except Error Unit) × TlsConnector
  | [] => ([], c)
  | h :: rest =>
    let r := c.connect h
    let t := connectMany c rest
    (r :: t.1, t.2)

/-- Repeated `accept` calls against one shared acceptor, threading the
acceptor through to expose any mutation of the shared configuration. -/
def acceptMany (a : TlsAcceptor) :
    List (Except Error Nat) → List (Except Error Nat) × TlsAcceptor
  | [] => ([], a)
  | h :: rest =>
    let r := a.accept h
    let t := acceptMany a rest
    (r :: t.1, t.2)

/-! ### Lemmas about the private-key scan -/

theorem load_key_cons_skip (i : Item) (rest : List ReadEvent)
    (h : itemKey? i = none) :
    load_rustls_private_key (ReadEvent.ok i :: rest) = load_rustls_private_key rest := by
  cases i <;> simp_all [itemKey?, load_rustls_private_key]

theorem load_key_cons_hit (i : Item) (k : PrivateKeyDer) (rest : List ReadEvent)
    (h : itemKey? i = some k) :
    load_rustls_private_key (ReadEvent.ok i :: rest) = Except.ok k := by
  cases i <;> simp_all [itemKey?, load_rustls_private_key]

theorem load_key_skip_all (pre : List Item) (rest : List ReadEvent)
    (h : ∀ i ∈ pre, itemKey? i = none) :
    load_rustls_private_key (pre.map ReadEvent.ok ++ rest) =
      load_rustls_private_key rest := by
  induction pre with
  | nil => rfl
  | cons i t ih =>
    have hi : itemKey? i = none := h i (List.mem_cons_self i t)
    have ht : ∀ j ∈ t, itemKey? j = none := fun j hj => h j (List.mem_cons_of_mem i hj)
    rw [List.map_cons, List.cons_append, load_key_cons_skip i _ hi]
    exact ih ht

/-- Claim C2: `load_rustls_private_key` scans the blocks sequentially and
returns the first block recognized as a PKCS1, PKCS8 or SEC1-EC private key,
tagged with that encoding (`itemKey?` is exactly the match arms of the
source); unrecognized blocks before it are skipped without error, and the
events after the first match (arbitrary `rest`) are never considered. -/
theorem load_rustls_private_key_first_match (pre : List Item) (i : Item)
    (k : PrivateKeyDer) (rest : List ReadEvent)
    (hpre : ∀ j ∈ pre, itemKey? j = none) (hi : itemKey? i = some k) :
    load_rustls_private_key (pre.map ReadEvent.ok ++ ReadEvent.ok i :: rest) =
      Except.ok k := by
  rw [load_key_skip_all pre _ hpre, load_key_cons_hit i k rest hi]

theorem load_rustls_private_key_first_match_witness :
    load_rustls_private_key
      [ReadEvent.ok (Item.x509Certificate [1]), ReadEvent.ok (Item.pkcs8Key [2]),
        ReadEvent.readErr] = Except.ok (PrivateKeyDer.pkcs8 [2]) :=
  load_rustls_private_key_first_match [Item.x509Certificate [1]]
    (Item.pkcs8Key [2]) (PrivateKeyDer.pkcs8 [2]) [ReadEvent.readErr]
    (by decide) rfl

/-- Claim C3: a PEM input with no block recognized as a PKCS1, PKCS8 or
SEC1-EC private key (for example only certificates) makes
`load_rustls_private_key` fail with `PrivateKeyParseError`. -/
theorem load_rustls_private_key_no_key (items : List Item)
    (h : ∀ i ∈ items, itemKey? i = none) :
    load_rustls_private_key (items.map ReadEvent.ok) =
      Except.error (Error.tls TlsError.privateKeyParseError) := by
  have h0 := load_key_skip_all items [] h
  rw [List.append_nil] at h0
  rw [h0]
  exact rfl

theorem load_rustls_private_key_no_key_witness :
    load_rustls_private_key
      [ReadEvent.ok (Item.x509Certificate [1]), ReadEvent.ok (Item.x509Certificate [2])] =
      Except.error (Error.tls TlsError.privateKeyParseError) :=
  load_rustls_private_key_no_key [Item.x509Certificate [1], Item.x509Certificate [2]]
    (by decide)

/-- Claim C10: a `read_one` failure mid-scan, before any recognized key,
stops the scan and yields `PrivateKeyParseError` — not the read error —
and the outcome is the same as exhausting the stream at that point. -/
theorem load_rustls_private_key_read_error (pre : List Item) (rest : List ReadEvent)
    (hpre : ∀ i ∈ pre, itemKey? i = none) :
    load_rustls_private_key (pre.map ReadEvent.ok ++ ReadEvent.readErr :: rest) =
      Except.error (Error.tls TlsError.privateKeyParseError) ∧
    load_rustls_private_key (pre.map ReadEvent.ok ++ ReadEvent.readErr :: rest) =
      load_rustls_private_key (pre.map ReadEvent.ok) := by
  have h1 := load_key_skip_all pre (ReadEvent.readErr :: rest) hpre
  have h2 : load_rustls_private_key (pre.map ReadEvent.ok) =
      Except.error (Error.tls TlsError.privateKeyParseError) := by
    have h0 := load_key_skip_all pre [] hpre
    rw [List.append_nil] at h0
    rw [h0]
    exact rfl
  exact ⟨by rw [h1]; exact rfl, by rw [h1, h2]; exact rfl⟩

theorem load_rustls_private_key_read_error_witness :
    load_rustls_private_key
      [ReadEvent.ok (Item.x509Certificate [1]), ReadEvent.readErr,
        ReadEvent.ok (Item.pkcs1Key [5])] =
      Except.error (Error.tls TlsError.privateKeyParseError) :=
  (load_rustls_private_key_read_error [Item.x509Certificate [1]]
    [ReadEvent.ok (Item.pkcs1Key [5])] (by decide)).1

/-! ### The ALPN gate in `connect` -/

theorem connect_ok (c : TlsConnector) (s : Session) :
    c.connect (Except.ok s) =
      match s.alpn with
      | some b =>
        if b = ALPN_H2 then Except.ok ()
        else if c.assume_http2 then Except.ok ()
        else Except.error (Error.tls TlsError.h2NotNegotiated)
      | none =>
        if c.assume_http2 then Except.ok ()
        else Except.error (Error.tls TlsError.h2NotNegotiated) := rfl

/-- Claim C9: with `assume_http2` set, `connect` never fails with
`H2NotNegotiated`: any successful handshake passes the ALPN gate whatever
was negotiated, and a failed handshake surfaces its own error unchanged. -/
theorem connect_assume_http2_never_h2_error (c : TlsConnector)
    (h : c.assume_http2 = true) :
    (∀ s : Session, c.connect (Except.ok s) = Except.ok ()) ∧
    (∀ e : Error, c.connect (Except.error e) = Except.error e) := by
  constructor
  · intro s
    rw [connect_ok]
    cases halpn : s.alpn with
    | none => simp [h]
    | some b => by_cases hb : b = ALPN_H2 <;> simp [h, hb]
  · intro e
    rfl

theorem connect_assume_http2_never_h2_error_witness :
    TlsConnector.connect
      { config := { roots := [], clientAuth := none, alpn_protocols := [[104, 50]] },
        domain := "example.com", assume_http2 := true }
      (Except.ok { alpn := some [104, 116, 116, 112] }) = Except.ok () :=
  (connect_assume_http2_never_h2_error _ rfl).1 { alpn := some [104, 116, 116, 112] }

/-- Claim C1 counterexample: a connector with `assume_http2 = true` whose
peer negotiated `http/1.1` (a protocol other than `h2`) succeeds, where the
claim demands failure with `H2NotNegotiated`: the wildcard fallback arm is
not restricted to the no-protocol case. -/
theorem connect_wrong_protocol_assumed_cex :
    TlsConnector.connect
      { config := { roots := [], clientAuth := none, alpn_protocols := [[104, 50]] },
        domain := "example.com", assume_http2 := true }
      (Except.ok { alpn := some [104, 116, 116, 112, 47, 49, 46, 49] }) ≠
      Except.error (Error.tls TlsError.h2NotNegotiated) ∧
    TlsConnector.connect
      { config := { roots := [], clientAuth := none, alpn_protocols := [[104, 50]] },
        domain := "example.com", assume_http2 := true }
      (Except.ok { alpn := some [104, 116, 116, 112, 47, 49, 46, 49] }) =
      Except.ok () :=
  ⟨by decide, rfl⟩

/-- Claim C1 (amended): after a cryptographically successful handshake,
`connect` succeeds exactly when the negotiated protocol equals `h2` or
`assume_http2` is set (whatever, if anything, was negotiated); in every
other case it fails with `H2NotNegotiated`. -/
theorem connect_alpn_gate (c : TlsConnector) (s : Session) :
    c.connect (Except.ok s) =
      if s.alpn = some ALPN_H2 ∨ c.assume_http2 = true then Except.ok ()
      else Except.error (Error.tls TlsError.h2NotNegotiated) := by
  rw [connect_ok]
  cases halpn : s.alpn with
  | none => cases hc : c.assume_http2 <;> simp [hc]
  | some b =>
    by_cases hb : b = ALPN_H2 <;> cases hc : c.assume_http2 <;> simp [hb, hc]

/-! ### Lemmas about certificate collection and the root store -/

theorem exceptOk_bind {α β : Type} (a : α) (f : α → Except Error β) :
    Except.ok a >>= f = f a := rfl

theorem exceptError_bind {α β : Type} (e : Error) (f : α → Except Error β) :
    (Except.error e : Except Error α) >>= f = Except.error e := rfl

theorem collectCerts_map_ok (cs : List CertificateDer) :
    collectCerts (cs.map Except.ok) = Except.ok cs := by
  induction cs with
  | nil => rfl
  | cons c t ih =>
    show collectCerts (Except.ok c :: t.map Except.ok) = Except.ok (c :: t)
    unfold collectCerts
    rw [ih, exceptOk_bind]
    rfl

theorem add_parsable_spec (roots : RootCertStore) (cs : List CertificateDer) :
    add_parsable_certificates roots cs =
      (roots ++ cs.filter (fun c => c.parsable),
        (cs.filter (fun c => c.parsable)).length,
        (cs.filter (fun c => !c.parsable)).length) := by
  induction cs generalizing roots with
  | nil => simp [add_parsable_certificates]
  | cons c t ih =>
    cases hc : c.parsable <;>
      simp [add_parsable_certificates, hc, ih, List.filter_cons]

/-- Claim C4: a PEM input whose blocks all read as certificates but where at
least one is rejected by the root store's parser fails with
`CertificateParseError`, while the parsable certificates of the same input
stay added to the store (fail-fast, no rollback). -/
theorem add_certs_from_pem_failfast (cs : List CertificateDer) (roots : RootCertStore)
    (h : ∃ c ∈ cs, c.parsable = false) :
    add_certs_from_pem (cs.map Except.ok) roots =
      (roots ++ cs.filter (fun c => c.parsable),
        Except.error (Error.tls TlsError.certificateParseError)) := by
  obtain ⟨c, hcmem, hcp⟩ := h
  have hmem : c ∈ cs.filter (fun x => !x.parsable) := by
    simp [List.mem_filter, hcmem, hcp]
  have hne : (cs.filter (fun x => !x.parsable)).length ≠ 0 := by
    intro h0
    rw [List.length_eq_zero] at h0
    rw [h0] at hmem
    exact (List.not_mem_nil c) hmem
  unfold add_certs_from_pem
  rw [collectCerts_map_ok]
  simp [add_parsable_spec, hne]

theorem add_certs_from_pem_failfast_witness :
    add_certs_from_pem
      [Except.ok { der := [1], parsable := true },
        Except.ok { der := [2], parsable := false }] [] =
      ([{ der := [1], parsable := true }],
        Except.error (Error.tls TlsError.certificateParseError)) :=
  add_certs_from_pem_failfast
    [{ der := [1], parsable := true }, { der := [2], parsable := false }] []
    ⟨{ der := [2], parsable := false }, by decide, rfl⟩

/-! ### Identity loading -/

theorem load_identity_eq (id : Identity) :
    load_identity id =
      match collectCerts id.cert with
      | .error e => .error e
      | .ok cert =>
        match load_rustls_private_key id.key with
        | .error e => .error e
        | .ok key => .ok (cert, key) := by
  unfold load_identity
  cases collectCerts id.cert <;> cases load_rustls_private_key id.key <;> rfl

/-- Claim C8: `load_identity` returns the pair (certificate chain collected
in order from the certificate PEM, first recognized key from the key PEM)
exactly when both sub-parses succeed; a certificate-side error surfaces
first (whatever the key side would do), and a key-side error surfaces when
the certificate side succeeded. The last conjunct records that collection
preserves block order. -/
theorem load_identity_composes (id : Identity) :
    (∀ cs key, load_identity id = Except.ok (cs, key) ↔
      collectCerts id.cert = Except.ok cs ∧
        load_rustls_private_key id.key = Except.ok key) ∧
    (∀ e, collectCerts id.cert = Except.error e →
      load_identity id = Except.error e) ∧
    (∀ cs e, collectCerts id.cert = Except.ok cs →
      load_rustls_private_key id.key = Except.error e →
      load_identity id = Except.error e) ∧
    (∀ cs : List CertificateDer, collectCerts (cs.map Except.ok) = Except.ok cs) := by
  refine ⟨?_, ?_, ?_, collectCerts_map_ok⟩
  · intro cs key
    rw [load_identity_eq]
    cases hc : collectCerts id.cert with
    | error e => simp
    | ok cert =>
      cases hk : load_rustls_private_key id.key with
      | error e => simp
      | ok k => simp [Prod.ext_iff]
  · intro e he
    rw [load_identity_eq, he]
  · intro cs e hc hk
    rw [load_identity_eq, hc, hk]

theorem load_identity_composes_witness :
    load_identity { cert := [Except.error 7], key := [] } =
      Except.error (Error.ioError 7) :=
  (load_identity_composes { cert := [Except.error 7], key := [] }).2.1
    (Error.ioError 7) rfl

/-! ### Acceptor posture selection -/

/-- Claim C5: without a client CA root the acceptor requests no client
certificate whatever the optional flag; with one, the flag selects between
the `allow_unauthenticated` verifier and the required verifier, both over a
trust store built solely from that root PEM. Stated for constructions in
which the rustls `with_single_cert` step accepts the loaded pair. -/
theorem tlsAcceptor_new_posture
    (wsc : List CertificateDer → PrivateKeyDer → Except Error Unit)
    (identity : Identity) (cert : CertPem)
    (roots : RootCertStore) (pair : List CertificateDer × PrivateKeyDer)
    (hid : load_identity identity = Except.ok pair)
    (hsc : wsc pair.1 pair.2 = Except.ok ())
    (hcert : add_certs_from_pem cert [] = (roots, Except.ok ()))
    (hne : roots ≠ []) :
    (∀ b : Bool, TlsAcceptor.new wsc identity none b =
      Except.ok { inner :=
        { clientAuth := ClientAuthPosture.disabled,
          cert := pair.1, key := pair.2, alpn_protocols := [ALPN_H2] } }) ∧
    TlsAcceptor.new wsc identity (some cert) true =
      Except.ok { inner :=
        { clientAuth := ClientAuthPosture.optionalVerify roots,
          cert := pair.1, key := pair.2, alpn_protocols := [ALPN_H2] } } ∧
    TlsAcceptor.new wsc identity (some cert) false =
      Except.ok { inner :=
        { clientAuth := ClientAuthPosture.requiredVerify roots,
          cert := pair.1, key := pair.2, alpn_protocols := [ALPN_H2] } } := by
  have hv : webPkiClientVerifierBuild roots = Except.ok () := by
    unfold webPkiClientVerifierBuild
    simp [hne]
  refine ⟨?_, ?_, ?_⟩
  · intro b
    unfold TlsAcceptor.new
    simp only [hid, hsc, exceptOk_bind]
  · unfold TlsAcceptor.new
    simp only [hcert, hv, hid, hsc, exceptOk_bind]
  · unfold TlsAcceptor.new
    simp only [hcert, hv, hid, hsc, exceptOk_bind]

theorem tlsAcceptor_new_posture_witness :
    TlsAcceptor.new (fun _ _ => Except.ok ())
      { cert := [Except.ok { der := [1], parsable := true }],
        key := [ReadEvent.ok (Item.pkcs8Key [9])] }
      (some [Except.ok { der := [2], parsable := true }]) true =
      Except.ok { inner :=
        { clientAuth := ClientAuthPosture.optionalVerify [{ der := [2], parsable := true }],
          cert := [{ der := [1], parsable := true }],
          key := PrivateKeyDer.pkcs8 [9], alpn_protocols := [[104, 50]] } } :=
  (tlsAcceptor_new_posture (fun _ _ => Except.ok ())
    { cert := [Except.ok { der := [1], parsable := true }],
      key := [ReadEvent.ok (Item.pkcs8Key [9])] }
    [Except.ok { der := [2], parsable := true }]
    [{ der := [2], parsable := true }]
    ([{ der := [1], parsable := true }], PrivateKeyDer.pkcs8 [9])
    rfl rfl rfl (by decide)).2.1

/-! ### Connector construction and the explicit CA certificate -/

/-- Claim C6: when a CA certificate is supplied, any failure of
`add_certs_from_pem` on it fails the whole construction with that error;
when it parses (all blocks certificates, all accepted by the store), the
construction succeeds and the parsed certificates are appended to the
initial trust store. -/
theorem tlsConnector_new_ca_cert
    (wcac : List CertificateDer → PrivateKeyDer → Except Error Unit)
    (initialRoots : RootCertStore) (cert : CertPem)
    (domain : DnsNameInput) (b : Bool) (hd : domain.valid = true) :
    (∀ e : Error, (add_certs_from_pem cert initialRoots).2 = Except.error e →
      TlsConnector.new wcac initialRoots (some cert) none domain b = Except.error e) ∧
    (∀ cs : List CertificateDer, collectCerts cert = Except.ok cs →
      (∀ x ∈ cs, x.parsable = true) →
      TlsConnector.new wcac initialRoots (some cert) none domain b =
        Except.ok
          { config :=
              { roots := initialRoots ++ cs, clientAuth := none,
                alpn_protocols := [ALPN_H2] },
            domain := domain.name, assume_http2 := b }) := by
  constructor
  · intro e he
    rcases hpair : add_certs_from_pem cert initialRoots with ⟨r, res⟩
    rw [hpair] at he
    simp only at he
    subst he
    unfold TlsConnector.new
    simp only [hpair, exceptError_bind]
  · intro cs hcs hall
    have h1 : cs.filter (fun x => x.parsable) = cs :=
      List.filter_eq_self.mpr (fun a ha => by rw [hall a ha])
    have h2 : cs.filter (fun x => !x.parsable) = [] := by
      rw [List.filter_eq_nil_iff]
      intro a ha
      simp [hall a ha]
    have hadd : add_certs_from_pem cert initialRoots =
        (initialRoots ++ cs, Except.ok ()) := by
      unfold add_certs_from_pem
      rw [hcs]
      simp [add_parsable_spec, h1, h2]
    unfold TlsConnector.new
    simp [hadd, hd, exceptOk_bind]

theorem tlsConnector_new_ca_cert_witness :
    TlsConnector.new (fun _ _ => Except.ok ()) []
      (some [Except.ok { der := [3], parsable := true }]) none
      { name := "example.org", valid := true } false =
      Except.ok
        { config :=
            { roots := [{ der := [3], parsable := true }],
              clientAuth := none, alpn_protocols := [[104, 50]] },
          domain := "example.org", assume_http2 := false } :=
  (tlsConnector_new_ca_cert (fun _ _ => Except.ok ()) []
    [Except.ok { der := [3], parsable := true }]
    { name := "example.org", valid := true } false rfl).2
    [{ der := [3], parsable := true }] rfl (by decide)

/-! ### Shared configuration is never mutated -/

theorem connectMany_eq (c : TlsConnector) (hs : List (Except Error Session)) :
    connectMany c hs = (hs.map c.connect, c) := by
  induction hs with
  | nil => rfl
  | cons h t ih => simp [connectMany, ih]

theorem acceptMany_eq (a : TlsAcceptor) (ks : List (Except Error Nat)) :
    acceptMany a ks = (ks.map a.accept, a) := by
  induction ks with
  | nil => rfl
  | cons h t ih => simp [acceptMany, ih]

/-- Claim C7: any sequence of `connect` and `accept` calls against a shared
connector/acceptor leaves the shared configuration exactly as constructed,
and every call's outcome is the pure function of the initial configuration
and its own handshake — identical across repeated calls. -/
theorem shared_config_unchanged (c : TlsConnector) (a : TlsAcceptor)
    (hs : List (Except Error Session)) (ks : List (Except Error Nat)) :
    (connectMany c hs).2 = c ∧ (connectMany c hs).1 = hs.map c.connect ∧
    (acceptMany a ks).2 = a ∧ (acceptMany a ks).1 = ks.map a.accept := by
  simp [connectMany_eq, acceptMany_eq]

end TonicTls
